import Mathlib

/-!
Verification of the Bhutan legal document question-answering pipeline.

This file gives a shallow embedding, in Lean 4, of the core retrieval
pipeline of the repository: word-window chunking, the document-set
fingerprint, chunk/metadata creation, the keyword fallback search, the
question-answering entry points, and the cache-validity logic of the
persistent variant.  Python strings are modelled as lists of characters
(`Str`), Python dictionaries returned to callers as association lists of
(`Str`, `PyVal`) pairs, and fallible calls as `Except`/`Option` values.
All definitions are executable; theorems about the claims follow the
definitions.
-/

/-- Python strings are modelled as lists of characters. -/
abbrev Str := List Char

/-- Embedding of Python `str.lower()` (characterwise, as for the ASCII
document names and queries used in the repository). -/
def pyLower (s : Str) : Str := s.map Char.toLower

/-- Embedding of Python `str.strip()`: drop leading and trailing
whitespace characters. -/
def pyStrip (s : Str) : Str :=
  ((s.dropWhile Char.isWhitespace).reverse.dropWhile Char.isWhitespace).reverse

/-- Embedding of the Python substring test `needle in hay`.  The empty
needle is a substring of everything, as in Python. -/
def isSubstring : Str → Str → Bool
  | [], _ => true
  | _ :: _, [] => false
  | n, c :: hs => (List.isPrefixOf n (c :: hs)) || isSubstring n hs

/-- Embedding of Python `str.replace(old, new)` for single characters
(used as `doc_name.replace('_', ' ')`). -/
def pyReplaceChar (old new : Char) (s : Str) : Str :=
  s.map (fun c => if c = old then new else c)

/-- Worker for `pySplit`; `cur` accumulates the characters of the word
currently being read, in reverse. -/
def pySplitGo : List Char → List Char → List Str
  | [], cur => if cur = [] then [] else [cur.reverse]
  | c :: rest, cur =>
    if c.isWhitespace then
      (if cur = [] then [] else [cur.reverse]) ++ pySplitGo rest []
    else
      pySplitGo rest (c :: cur)

/-- Embedding of Python `str.split()` with no argument: split on runs of
whitespace, discarding empty tokens. -/
def pySplit (s : Str) : List Str := pySplitGo s []

/-- Embedding of Python `sep.join(words)` for a string separator. -/
def joinSep (sep : Str) : List Str → Str
  | [] => []
  | [w] => w
  | w :: ws => w ++ sep ++ joinSep sep ws

/-- Embedding of `" ".join(words)`. -/
def joinWords : List Str → Str := joinSep [' ']

/-- Worker for `natDec`; the fuel argument only establishes totality
(the value shrinks by a factor of ten each step, so fuel `n + 1` always
suffices for `n`). -/
def natDecGo : ℕ → ℕ → Str
  | 0, _ => []
  | fuel + 1, n =>
    if n < 10 then [Nat.digitChar n]
    else natDecGo fuel (n / 10) ++ [Nat.digitChar (n % 10)]

/-- Decimal rendering of a natural number, as produced by a Python
f-string for a nonnegative integer (used for `stat.st_size`). -/
def natDec (n : ℕ) : Str := natDecGo (n + 1) n

/-- The words of a split text: every word is nonempty and contains no
whitespace.  `pySplit` always produces such words. -/
def goodWords (ws : List Str) : Prop :=
  ∀ w ∈ ws, w ≠ [] ∧ ∀ c ∈ w, c.isWhitespace = false

/-! ## The word-window chunker

`PersistentBhutanRAG.chunk_text` (persistent_bhutan_rag.py) and
`ImprovedBhutanRAG.simple_chunk_text` (version2.py) are the same
algorithm, differing only in their default `(chunk_size, overlap)`
arguments (1200/200 and 1500/300):

    words = text.split()
    chunks = []
    for i in range(0, len(words), chunk_size - overlap):
        chunk_words = words[i:i + chunk_size]
        chunk = " ".join(chunk_words)
        if chunk.strip():
            chunks.append(chunk)
        if i + chunk_size >= len(words):
            break
    return chunks
-/

/-- One pass of the chunking loop, phrased over the suffix
`words[i:]` of the word list instead of the index `i`; the extra fuel
argument only establishes totality and never runs out when it starts at
the length of the word list (each step drops `chunk_size - overlap ≥ 1`
words).  The loop body appends `" ".join(words[i:i+chunk_size])` when its
strip is nonempty, and breaks when `i + chunk_size >= len(words)`. -/
def chunkWindows (cs ov : ℕ) : ℕ → List Str → List Str
  | 0, _ => []
  | _ + 1, [] => []
  | fuel + 1, ws =>
    let chunk := joinWords (ws.take cs)
    (if pyStrip chunk ≠ [] then [chunk] else []) ++
      (if ws.length ≤ cs then [] else chunkWindows cs ov fuel (ws.drop (cs - ov)))

/-- The chunk list produced by the loop of `chunk_text` on a text, for a
configuration with `overlap < chunk_size` (the only way the loop itself
is ever entered with a positive step). -/
def chunkTextRun (text : Str) (cs ov : ℕ) : List Str :=
  let words := pySplit text
  chunkWindows cs ov (words.length + 1) words

/-- Python exceptions that the embedded fragments can raise. -/
inductive PyErr
  | valueError
deriving DecidableEq

/-- Embedding of `chunk_text(text, chunk_size, overlap)` /
`simple_chunk_text`.  When `overlap = chunk_size` the step of
`range(0, len(words), chunk_size - overlap)` is zero and Python raises
`ValueError`; when `overlap > chunk_size` the step is negative, the
range is empty and the function returns an empty chunk list; otherwise
the window loop runs. -/
def chunk_text (text : Str) (cs ov : ℕ) : Except PyErr (List Str) :=
  if cs = ov then .error .valueError
  else if cs < ov then .ok []
  else .ok (chunkTextRun text cs ov)

/-- The chunk count the code actually produces on a text of `W` words
for a configuration with `overlap < chunk_size` (in particular one chunk
for every nonempty text, even when `W ≤ overlap`). -/
def pyChunkCount (W cs ov : ℕ) : ℕ :=
  if W = 0 then 0 else max 1 ((W - ov + (cs - ov) - 1) / (cs - ov))

/-- The chunk count claimed by the specification, following its words:
`ceil((W - overlap) / (chunk_size - overlap))`, read over the rationals
(it can be nonpositive when `W ≤ overlap`). -/
def specCeilChunkCount (W cs ov : ℕ) : ℤ :=
  ⌈((W : ℚ) - (ov : ℚ)) / ((cs : ℚ) - (ov : ℚ))⌉

/-! ## Document types and chunk metadata -/

/-- Embedding of `PersistentBhutanRAG.get_document_type`: a keyword
lookup against the lowercased document name. -/
def getDocumentTypeP (docName : Str) : Str :=
  let d := pyLower docName
  if isSubstring "constitution".data d then "constitution".data
  else if isSubstring "penal".data d || isSubstring "criminal".data d then "criminal_law".data
  else if isSubstring "corruption".data d then "anti_corruption".data
  else if isSubstring "land".data d then "land_law".data
  else if isSubstring "tax".data d then "tax_law".data
  else if isSubstring "environment".data d then "environmental_law".data
  else "general_law".data

/-- Embedding of `ImprovedBhutanRAG.get_document_type` (version2.py);
it has one extra branch for civil law. -/
def getDocumentTypeV2 (docName : Str) : Str :=
  let d := pyLower docName
  if isSubstring "constitution".data d then "constitution".data
  else if isSubstring "penal".data d || isSubstring "criminal".data d then "criminal_law".data
  else if isSubstring "civil".data d then "civil_law".data
  else if isSubstring "corruption".data d then "anti_corruption".data
  else if isSubstring "land".data d then "land_law".data
  else if isSubstring "tax".data d then "tax_law".data
  else if isSubstring "environment".data d then "environmental_law".data
  else "general_law".data

/-- Metadata attached to a chunk by `PersistentBhutanRAG.create_chunks`. -/
structure ChunkMetaP where
  document : Str
  chunk_id : ℕ
  total_chunks : ℕ
  doc_type : Str
deriving DecidableEq

/-- Metadata attached to a chunk by
`ImprovedBhutanRAG.create_enhanced_chunks` (version2.py). -/
structure ChunkMetaV2 where
  document : Str
  chunk_id : ℕ
  total_chunks : ℕ
  doc_type : Str
  content_preview : Str
deriving DecidableEq

/-- The chunk and metadata lists contributed by one document in
`PersistentBhutanRAG.create_chunks`: chunk the text with
`chunk_text(text, 1200, 200)`, keep the windows whose stripped length
exceeds 100 characters, and record `(document, chunk_id, total_chunks,
doc_type)` for each kept window.  The two lists are appended to in
lockstep by the Python loop. -/
def perDocChunksP (docName text : Str) : List Str × List ChunkMetaP :=
  let chunks := chunkTextRun text 1200 200
  let kept := chunks.enum.filter (fun ic => 100 < (pyStrip ic.2).length)
  (kept.map (fun ic => ic.2),
   kept.map (fun ic =>
     { document := docName, chunk_id := ic.1, total_chunks := chunks.length,
       doc_type := getDocumentTypeP docName }))

/-- Embedding of `PersistentBhutanRAG.create_chunks`: the outer loop
over `legal_texts.items()` appends each document's chunks and metadata
records, in order, to one pair of lists. -/
def create_chunks (texts : List (Str × Str)) : List Str × List ChunkMetaP :=
  ((texts.map (fun dt => (perDocChunksP dt.1 dt.2).1)).flatten,
   (texts.map (fun dt => (perDocChunksP dt.1 dt.2).2)).flatten)

/-- The chunk and metadata lists contributed by one document in
`ImprovedBhutanRAG.create_enhanced_chunks` (version2.py).  The sections
come from `split_legal_document(text, doc_name)`, taken here as a
parameter `splitter`; kept sections are those whose stripped length
exceeds 50 characters. -/
def perDocChunksV2 (splitter : Str → Str → List Str) (docName text : Str) :
    List Str × List ChunkMetaV2 :=
  let sections := splitter text docName
  let kept := sections.enum.filter (fun ic => 50 < (pyStrip ic.2).length)
  (kept.map (fun ic => ic.2),
   kept.map (fun ic =>
     { document := docName, chunk_id := ic.1, total_chunks := sections.length,
       doc_type := getDocumentTypeV2 docName,
       content_preview :=
         if 100 < ic.2.length then ic.2.take 100 ++ "...".data else ic.2 }))

/-- Embedding of `ImprovedBhutanRAG.create_enhanced_chunks`
(version2.py), parametric in the section splitter. -/
def create_enhanced_chunks (splitter : Str → Str → List Str)
    (texts : List (Str × Str)) : List Str × List ChunkMetaV2 :=
  ((texts.map (fun dt => (perDocChunksV2 splitter dt.1 dt.2).1)).flatten,
   (texts.map (fun dt => (perDocChunksV2 splitter dt.1 dt.2).2)).flatten)

/-- Embedding of `PersistentBhutanRAG.load_chunks_data`: the pickle
store either holds a saved (chunks, metadata) pair or reading fails, in
which case the method returns a pair of empty lists. -/
def load_chunks_data : Option (List Str × List ChunkMetaP) → List Str × List ChunkMetaP
  | none => ([], [])
  | some st => st

/-! ## The document-set fingerprint

`PersistentBhutanRAG.get_documents_hash` iterates over the sorted PDF
files and builds `hash_content += f"{name}:{size}:{mtime}:"`, then
returns `hashlib.md5(hash_content.encode()).hexdigest()`.  MD5 is a
library function (a fixed deterministic function of this string), so the
embedding models the string fed to it; equal strings give equal
digests. -/

/-- The `(name, size, mtime)` stat triple of one PDF file; `mtime` is
kept as the decimal string an f-string renders `stat.st_mtime` to. -/
structure PdfStat where
  name : Str
  size : ℕ
  mtime : Str
deriving DecidableEq

/-- The fragment `f"{pdf_file.name}:{stat.st_size}:{stat.st_mtime}:"`
contributed by one file. -/
def statEntry (p : PdfStat) : Str :=
  p.name ++ ":".data ++ natDec p.size ++ ":".data ++ p.mtime ++ ":".data

/-- The full `hash_content` string of `get_documents_hash`, over the
sorted list of PDF stat triples. -/
def documentsHashContent (ps : List PdfStat) : Str :=
  (ps.map statEntry).flatten

/-! ## The keyword searches -/

/-- Ordering used to model Python's stable descending sort by score
(`list.sort(reverse=True, key=lambda x: x[0])`): entries are tagged with
their insertion index, and an entry precedes another when its score is
larger, or the scores are equal and it was inserted earlier. -/
def scoreIdxRel {α : Type} (a b : ℕ × ℕ × α) : Prop :=
  b.2.1 < a.2.1 ∨ (a.2.1 = b.2.1 ∧ a.1 ≤ b.1)

instance {α : Type} : DecidableRel (@scoreIdxRel α) := fun a b =>
  inferInstanceAs (Decidable (b.2.1 < a.2.1 ∨ (a.2.1 = b.2.1 ∧ a.1 ≤ b.1)))

instance {α : Type} : IsTotal (ℕ × ℕ × α) scoreIdxRel :=
  ⟨by intro a b; unfold scoreIdxRel; omega⟩

instance {α : Type} : IsTrans (ℕ × ℕ × α) scoreIdxRel :=
  ⟨by intro a b c; unfold scoreIdxRel; omega⟩

/-- The relevance score one chunk receives in
`ImprovedBhutanRAG.enhanced_text_search` (version2.py): +10 when the
whole lowercased question is a substring of the lowercased chunk, +2 for
every entry of `query.lower().split()` (with multiplicity) occurring in
the lowercased chunk, and a +5/+5/+3 document-name boost from the first
matching branch of the `constitution`/`corruption`/`rights` chain. -/
def scoreChunk (query chunk : Str) (meta : ChunkMetaV2) : ℕ :=
  let ql := pyLower query
  let queryWords := pySplit ql
  let chunkLower := pyLower chunk
  let exact := if isSubstring ql chunkLower then 10 else 0
  let wordMatches := queryWords.countP (fun w => isSubstring w chunkLower)
  let docName := pyLower meta.document
  let boost :=
    if isSubstring "constitution".data ql && isSubstring "constitution".data docName then 5
    else if isSubstring "corruption".data ql && isSubstring "corruption".data docName then 5
    else if isSubstring "rights".data ql && isSubstring "constitution".data docName then 3
    else 0
  exact + 2 * wordMatches + boost

/-- The `scored_chunks` list built by the loop of
`ImprovedBhutanRAG.enhanced_text_search` (version2.py): the Python loop
reads `self.metadata_with_context[i]` for chunk `i`, which under the
alignment invariant of the two lists is their zip; the `(score, chunk,
metadata)` triples of positive score are collected in iteration
order. -/
def scoredChunks (chunks : List Str) (metas : List ChunkMetaV2) (query : Str) :
    List (ℕ × Str × ChunkMetaV2) :=
  (chunks.zip metas).filterMap (fun cm =>
    let s := scoreChunk query cm.1 cm.2
    if 0 < s then some ((s, cm) : ℕ × Str × ChunkMetaV2) else none)

/-- Embedding of `ImprovedBhutanRAG.enhanced_text_search` (version2.py):
sort the scored chunks with Python's stable descending sort — modelled
by tagging each entry with its insertion index (`enum`) and sorting by
`scoreIdxRel` — and return the texts and metadata of the top `k`. -/
def enhanced_text_search (chunks : List Str) (metas : List ChunkMetaV2)
    (query : Str) (k : ℕ) : List Str × List ChunkMetaV2 :=
  let sorted := ((scoredChunks chunks metas query).enum).insertionSort scoreIdxRel
  let top := (sorted.map Prod.snd).take k
  (top.map (fun x => x.2.1), top.map (fun x => x.2.2))

/-- Embedding of `ImprovedBhutanRAG.search_documents` (version2.py).
The vector path is the chromadb query, a library call whose outcome is a
parameter here: absent index, or a raised exception, both fall through
to `enhanced_text_search`. -/
def v2_search_documents (vdb : Option (Except Unit (List Str × List ChunkMetaV2)))
    (chunks : List Str) (metas : List ChunkMetaV2) (query : Str) (k : ℕ) :
    List Str × List ChunkMetaV2 :=
  match vdb with
  | some (.ok res) => res
  | some (.error _) => enhanced_text_search chunks metas query k
  | none => enhanced_text_search chunks metas query k

/-- Embedding of `PersistentBhutanRAG.search_documents`: a missing
vector index returns `([], [])` immediately (there is no keyword
fallback in this variant), and any exception in the vector path is
caught and also yields `([], [])`. -/
def persistent_search_documents
    (vdb : Option (Except Unit (List Str × List ChunkMetaP))) :
    List Str × List ChunkMetaP :=
  match vdb with
  | none => ([], [])
  | some (.error _) => ([], [])
  | some (.ok res) => res

/-- Embedding of the simple word-count fallback search inside
`BhutanLegalRAG.search_legal_documents` (bhutan_legal_rag.py): score is
the number of query words (with multiplicity) occurring in the
lowercased chunk; positive scorers are sorted descending (stable) and
the top `k` are returned. -/
def simple_text_search (chunks : List Str) (metas : List ChunkMetaP)
    (query : Str) (k : ℕ) : List Str × List ChunkMetaP :=
  let queryWords := pySplit (pyLower query)
  let scored := (chunks.zip metas).filterMap (fun cm =>
    let s := queryWords.countP (fun w => isSubstring w (pyLower cm.1))
    if 0 < s then some ((s, cm) : ℕ × Str × ChunkMetaP) else none)
  let sorted := (scored.enum).insertionSort scoreIdxRel
  let top := (sorted.map Prod.snd).take k
  (top.map (fun x => x.2.1), top.map (fun x => x.2.2))

/-- Embedding of `BhutanLegalRAG.search_legal_documents`
(bhutan_legal_rag.py): a present index with a successful query returns
its result; otherwise, when a fallback chunk store was recorded (it is
recorded exactly when vector-database setup failed), the simple text
search runs; with no fallback store the result is `([], [])`. -/
def search_legal_documents (vdb : Option (Except Unit (List Str × List ChunkMetaP)))
    (fallbackStore : Option (List Str × List ChunkMetaP)) (query : Str) (k : ℕ) :
    List Str × List ChunkMetaP :=
  match vdb with
  | some (.ok res) => res
  | _ =>
    match fallbackStore with
    | some st => simple_text_search st.1 st.2 query k
    | none => ([], [])

/-! ## Answer synthesis (version2.py) -/

/-- Python values appearing in the result dictionaries of the ask entry
points. -/
inductive PyVal
  | str (s : Str)
  | num (q : ℚ)
  | strList (xs : List Str)
  | bool (b : Bool)
deriving DecidableEq

/-- A Python dictionary returned to a caller, as an association list in
key insertion order. -/
abbrev PyDict := List (Str × PyVal)

/-- Keyword list of `extract_rights_info`. -/
def rightsKeywords : List Str :=
  ["right".data, "freedom".data, "liberty".data, "shall have".data]

/-- Keyword list of `extract_penalty_info`. -/
def penaltyKeywords : List Str :=
  ["penalty".data, "fine".data, "imprisonment".data, "punish".data, "sentence".data]

/-- Keyword list of `extract_citizenship_info`. -/
def citizenshipKeywords : List Str :=
  ["citizen".data, "citizenship".data, "national".data, "domiciled".data]

/-- Keyword list of `extract_environment_info`. -/
def environmentKeywords : List Str :=
  ["environment".data, "forest".data, "natural".data, "conservation".data, "pollution".data]

/-- Keyword list of `extract_election_info`. -/
def electionKeywords : List Str :=
  ["election".data, "vote".data, "ballot".data, "candidate".data, "assembly".data]

/-- Loop of `extract_rights_info` (version2.py): the first
constitution-named document with a sentence matching a rights keyword
determines the answer. -/
def extract_rights_go : List (Str × ChunkMetaV2) → Option Str
  | [] => none
  | (doc, meta) :: rest =>
    if isSubstring "constitution".data (pyLower meta.document) then
      let rs := ((List.splitOn '.' doc).filter
        (fun s => rightsKeywords.any (fun kw => isSubstring kw (pyLower s)))).map pyStrip
      if rs ≠ [] then
        some ("According to Bhutan\x27s Constitution, the fundamental rights include: ".data
          ++ joinSep ". ".data (rs.take 3) ++ ".".data)
      else extract_rights_go rest
    else extract_rights_go rest

/-- Embedding of `ImprovedBhutanRAG.extract_rights_info`. -/
def extract_rights_info (docs : List Str) (metas : List ChunkMetaV2) : Str :=
  (extract_rights_go (docs.zip metas)).getD
    ("Based on Bhutan\x27s legal documents: ".data ++ (docs.headD []).take 200 ++ "...".data)

/-- Loop of `extract_penalty_info` (version2.py). -/
def extract_penalty_go : List (Str × ChunkMetaV2) → Option Str
  | [] => none
  | (doc, meta) :: rest =>
    let ps := ((List.splitOn '.' doc).filter
      (fun s => penaltyKeywords.any (fun kw => isSubstring kw (pyLower s)))).map pyStrip
    if ps ≠ [] then
      some ("According to ".data ++ pyReplaceChar '_' ' ' meta.document ++ ": ".data
        ++ joinSep ". ".data (ps.take 2) ++ ".".data)
    else extract_penalty_go rest

/-- Embedding of `ImprovedBhutanRAG.extract_penalty_info`. -/
def extract_penalty_info (docs : List Str) (metas : List ChunkMetaV2) : Str :=
  (extract_penalty_go (docs.zip metas)).getD
    ("Based on the legal provisions: ".data ++ (docs.headD []).take 200 ++ "...".data)

/-- Loop of `extract_citizenship_info` (version2.py). -/
def extract_citizenship_go : List (Str × ChunkMetaV2) → Option Str
  | [] => none
  | (doc, _) :: rest =>
    let cs := ((List.splitOn '.' doc).filter
      (fun s => citizenshipKeywords.any (fun kw => isSubstring kw (pyLower s)))).map pyStrip
    if cs ≠ [] then
      some ("Regarding citizenship in Bhutan: ".data ++ joinSep ". ".data (cs.take 2) ++ ".".data)
    else extract_citizenship_go rest

/-- Embedding of `ImprovedBhutanRAG.extract_citizenship_info`. -/
def extract_citizenship_info (docs : List Str) (metas : List ChunkMetaV2) : Str :=
  (extract_citizenship_go (docs.zip metas)).getD
    ("Based on Bhutan\x27s legal framework: ".data ++ (docs.headD []).take 200 ++ "...".data)

/-- Loop of `extract_environment_info` (version2.py). -/
def extract_environment_go : List (Str × ChunkMetaV2) → Option Str
  | [] => none
  | (doc, _) :: rest =>
    let es := ((List.splitOn '.' doc).filter
      (fun s => environmentKeywords.any (fun kw => isSubstring kw (pyLower s)))).map pyStrip
    if es ≠ [] then
      some ("Bhutan\x27s environmental laws state: ".data ++ joinSep ". ".data (es.take 2) ++ ".".data)
    else extract_environment_go rest

/-- Embedding of `ImprovedBhutanRAG.extract_environment_info`. -/
def extract_environment_info (docs : List Str) (metas : List ChunkMetaV2) : Str :=
  (extract_environment_go (docs.zip metas)).getD
    ("Based on environmental provisions: ".data ++ (docs.headD []).take 200 ++ "...".data)

/-- Loop of `extract_election_info` (version2.py). -/
def extract_election_go : List (Str × ChunkMetaV2) → Option Str
  | [] => none
  | (doc, _) :: rest =>
    let es := ((List.splitOn '.' doc).filter
      (fun s => electionKeywords.any (fun kw => isSubstring kw (pyLower s)))).map pyStrip
    if es ≠ [] then
      some ("Regarding elections in Bhutan: ".data ++ joinSep ". ".data (es.take 2) ++ ".".data)
    else extract_election_go rest

/-- Embedding of `ImprovedBhutanRAG.extract_election_info`. -/
def extract_election_info (docs : List Str) (metas : List ChunkMetaV2) : Str :=
  (extract_election_go (docs.zip metas)).getD
    ("Based on election laws: ".data ++ (docs.headD []).take 200 ++ "...".data)

/-- Embedding of `ImprovedBhutanRAG.extract_general_info`: collect, over
all retrieved documents, the stripped sentences longer than 20
characters containing at least one query word, stably sort them by
descending word-match score and join the top two. -/
def extract_general_info (docs : List Str) (query : Str) : Str :=
  let queryWords := pySplit (pyLower query)
  let best := (docs.map (fun doc =>
    (List.splitOn '.' doc).filterMap (fun s =>
      if 20 < (pyStrip s).length then
        let score := queryWords.countP (fun w => isSubstring w (pyLower s))
        if 0 < score then some ((score, pyStrip s) : ℕ × Str) else none
      else none))).flatten
  if best ≠ [] then
    let sorted := (best.enum).insertionSort scoreIdxRel
    let top := ((sorted.map Prod.snd).take 2).map Prod.snd
    "According to Bhutan\x27s legal documents: ".data ++ joinSep ". ".data top ++ ".".data
  else
    "Based on the available legal text: ".data ++ (docs.headD []).take 300 ++ "...".data

/-- Embedding of `ImprovedBhutanRAG.extract_legal_answer`: dispatch on
legal concepts detected in the lowercased question. -/
def extract_legal_answer (query : Str) (docs : List Str) (metas : List ChunkMetaV2) : Str :=
  let ql := pyLower query
  if isSubstring "rights".data ql || isSubstring "fundamental".data ql then
    extract_rights_info docs metas
  else if isSubstring "penalty".data ql || isSubstring "punishment".data ql then
    extract_penalty_info docs metas
  else if isSubstring "citizenship".data ql then
    extract_citizenship_info docs metas
  else if isSubstring "environment".data ql then
    extract_environment_info docs metas
  else if isSubstring "election".data ql then
    extract_election_info docs metas
  else
    extract_general_info docs query

/-- Embedding of `ImprovedBhutanRAG.format_legal_answer`. -/
def format_legal_answer (answer : Str) (docs : List Str) : Str :=
  if answer.length < 20 then extract_general_info docs []
  else if answer.length < 50 then
    answer ++ " ".data ++ (docs.headD []).take 200 ++ "...".data
  else answer

/-- Embedding of `ImprovedBhutanRAG.generate_enhanced_response`.  The
question-answering pipeline is an external model; its observed outcome
is the parameter `qa`: `some (answer, confidence)` when a pipeline with
a `model_name` attribute is active and its call returns, `none`
otherwise (no pipeline, or an exception, both of which fall through to
the extractive path, as does a low-confidence or empty answer). -/
def generate_enhanced_response (qa : Option (Str × ℚ)) (query : Str)
    (docs : List Str) (metas : List ChunkMetaV2) : Str :=
  if docs = [] then "No relevant legal information found in the available documents.".data
  else
    match qa with
    | some (answer, confidence) =>
      if answer ≠ [] ∧ (1/10 : ℚ) < confidence then format_legal_answer answer docs
      else extract_legal_answer query docs metas
    | none => extract_legal_answer query docs metas

/-- The fixed no-information answer of version2.py. -/
def v2NoInfoAnswer : Str :=
  "No relevant legal information found in the available documents.".data

/-- Embedding of `ImprovedBhutanRAG.ask_legal_question` (version2.py). -/
def v2_ask_legal_question (vdb : Option (Except Unit (List Str × List ChunkMetaV2)))
    (qa : Option (Str × ℚ)) (chunks : List Str) (metas : List ChunkMetaV2)
    (question : Str) : PyDict :=
  let res := v2_search_documents vdb chunks metas question 5
  let docs := res.1
  let rmetas := res.2
  if docs = [] then
    [("question".data, .str question),
     ("answer".data, .str v2NoInfoAnswer),
     ("sources".data, .strList []),
     ("confidence".data, .num 0)]
  else
    [("question".data, .str question),
     ("answer".data, .str (generate_enhanced_response qa question docs rmetas)),
     ("sources".data, .strList ((rmetas.map (fun m => pyReplaceChar '_' ' ' m.document)).dedup)),
     ("relevant_excerpts".data, .strList (docs.take 2)),
     ("confidence".data, .num (min ((docs.length : ℚ) / 5) 1))]

/-! ## Answer synthesis (persistent_bhutan_rag.py) -/

/-- The fixed no-information answer of persistent_bhutan_rag.py. -/
def pNoInfoAnswer : Str := "No relevant legal information found.".data

/-- Loop of `PersistentBhutanRAG.generate_fallback_response`: the first
document with a stripped sentence (longer than 20 characters) containing
a query word determines the answer. -/
def generate_fallback_go (queryWords : List Str) : List (Str × ChunkMetaP) → Option Str
  | [] => none
  | (doc, meta) :: rest =>
    let sentences := (List.splitOn '.' doc).filterMap (fun s =>
      if 20 < (pyStrip s).length then some (pyStrip s) else none)
    let relevant := sentences.filter
      (fun s => queryWords.any (fun w => isSubstring w (pyLower s)))
    if relevant ≠ [] then
      some ("According to ".data ++ pyReplaceChar '_' ' ' meta.document ++ ": ".data
        ++ joinSep ". ".data (relevant.take 2) ++ ".".data)
    else generate_fallback_go queryWords rest

/-- Embedding of `PersistentBhutanRAG.generate_fallback_response`. -/
def generate_fallback_response (query : Str) (docs : List Str) (metas : List ChunkMetaP) : Str :=
  (generate_fallback_go (pySplit (pyLower query)) (docs.zip metas)).getD
    ("Based on Bhutan\x27s legal documents: ".data ++ (docs.headD []).take 400 ++ "...".data)

/-- Embedding of `PersistentBhutanRAG.generate_response`.  The Gemini
client is an external service: `gemini = some (some text)` models a
configured client whose call returned a nonempty response text,
`some none` a configured client whose call failed or returned nothing
(falling back), `none` an unconfigured client. -/
def generate_response (gemini : Option (Option Str)) (query : Str)
    (docs : List Str) (metas : List ChunkMetaP) : Str :=
  if docs = [] then pNoInfoAnswer
  else
    match gemini with
    | some (some text) => pyStrip text
    | some none => generate_fallback_response query docs metas
    | none => generate_fallback_response query docs metas

/-- Embedding of `PersistentBhutanRAG.ask_legal_question`.  Note the
result dictionary has an `ai_powered` field and no `confidence`
field. -/
def persistent_ask_legal_question
    (vdb : Option (Except Unit (List Str × List ChunkMetaP)))
    (gemini : Option (Option Str)) (question : Str) : PyDict :=
  let res := persistent_search_documents vdb
  let docs := res.1
  let metas := res.2
  if docs = [] then
    [("question".data, .str question),
     ("answer".data, .str pNoInfoAnswer),
     ("sources".data, .strList []),
     ("ai_powered".data, .bool false)]
  else
    [("question".data, .str question),
     ("answer".data, .str (generate_response gemini question docs metas)),
     ("sources".data, .strList ((metas.map (fun m => pyReplaceChar '_' ' ' m.document)).dedup)),
     ("ai_powered".data, .bool gemini.isSome)]

/-! ## The persistent cache model

`PersistentBhutanRAG.initialize_system` is a state machine over the
cache directory, the document set and the chroma collection.  The state
below records what each step of the code reads and writes; external
observations that the code only consumes (the extracted text of the
PDFs, the availability of the embedding model) are fields of the
state. -/

/-- State of the persistent system: the current document fingerprint,
the cache directory contents, the chroma collection, and the outcomes of
the external operations. -/
structure RagState where
  /-- Current `get_documents_hash()` of the document set. -/
  docsHash : Str
  /-- `documents_hash` stored in `system_metadata.json`, `none` when the
  file is absent or unreadable. -/
  metadataHash : Option Str
  /-- Whether `legal_texts.json` exists. -/
  textsFileExists : Bool
  /-- Whether `chunks_data.pickle` exists. -/
  chunksFileExists : Bool
  /-- Whether `embeddings.pickle` exists.  No code path ever writes this
  file; `is_cache_valid` nevertheless requires it. -/
  embeddingsFileExists : Bool
  /-- Contents of `legal_texts.json`. -/
  storedTexts : List (Str × Str)
  /-- Contents of `chunks_data.pickle`. -/
  storedChunks : List Str × List ChunkMetaP
  /-- Whether the persistent chroma collection `bhutan_legal_docs`
  exists. -/
  collectionExists : Bool
  /-- Whether `docs_dir` contains any PDF file. -/
  pdfsPresent : Bool
  /-- What `extract_text_from_pdfs` obtains from the documents (its
  `legal_texts` result). -/
  pdfTexts : List (Str × Str)
  /-- Whether `setup_embedding_model` succeeds. -/
  embeddingModelOk : Bool
deriving DecidableEq

/-- Embedding of `PersistentBhutanRAG.is_cache_valid`: metadata present,
stored fingerprint equal to the current one, and the three cache files
(`legal_texts.json`, `chunks_data.pickle`, `embeddings.pickle`)
present. -/
def is_cache_valid (s : RagState) : Bool :=
  match s.metadataHash with
  | none => false
  | some h =>
    if h = s.docsHash then
      s.textsFileExists && s.chunksFileExists && s.embeddingsFileExists
    else false

/-- Result of one `initialize_system` run: its return value, how many
times `extract_text_from_pdfs` ran, how many chunks were embedded
(`embedding_model.encode` over corpus chunks), and the state left
behind. -/
structure InitResult where
  success : Bool
  extractCalls : ℕ
  embeddedChunks : ℕ
  state : RagState
deriving DecidableEq

/-- Embedding of `setup_persistent_vector_database`: an existing
collection is loaded as is (no embedding); otherwise a collection is
created and every chunk embedded and inserted (chroma persists it
automatically). -/
def setup_vdb (s : RagState) (chunks : List Str) : ℕ × RagState :=
  if s.collectionExists then (0, s)
  else (chunks.length, { s with collectionExists := true })

/-- The from-scratch path of `initialize_system`: extract, chunk, embed,
then save metadata.  `save_legal_texts` and `save_chunks_data` write
their files; nothing ever writes `embeddings.pickle`. -/
def initialize_from_scratch (s : RagState) : InitResult :=
  if ¬ s.pdfsPresent then
    { success := false, extractCalls := 0, embeddedChunks := 0, state := s }
  else
    let texts := s.pdfTexts
    let s1 := { s with textsFileExists := true, storedTexts := texts }
    if texts = [] then
      { success := false, extractCalls := 1, embeddedChunks := 0, state := s1 }
    else
      let cm := create_chunks texts
      let s2 := { s1 with chunksFileExists := true, storedChunks := cm }
      if ¬ s.embeddingModelOk then
        { success := false, extractCalls := 1, embeddedChunks := 0, state := s2 }
      else
        let vr := setup_vdb s2 cm.1
        let s3 := { vr.2 with metadataHash := some s.docsHash }
        { success := true, extractCalls := 1, embeddedChunks := vr.1, state := s3 }

/-- Embedding of `PersistentBhutanRAG.initialize_system`: when the cache
is valid, load texts and chunks from it and, if both are nonempty, set
up the embedding model and the persistent vector database without any
extraction; in every other case fall through to the from-scratch
path. -/
def initialize_system (s : RagState) : InitResult :=
  if is_cache_valid s then
    let texts := if s.textsFileExists then s.storedTexts else []
    let cm := if s.chunksFileExists then s.storedChunks else ([], [])
    if texts ≠ [] ∧ cm.1 ≠ [] then
      if s.embeddingModelOk then
        let vr := setup_vdb s cm.1
        { success := true, extractCalls := 0, embeddedChunks := vr.1, state := vr.2 }
      else
        { success := false, extractCalls := 0, embeddedChunks := 0, state := s }
    else initialize_from_scratch s
  else initialize_from_scratch s

/-! ## The vector index -/

/-- An entry of the vector index: chunk text and metadata (the embedding
vector itself is summarised by the similarity function of a query). -/
structure VEntry where
  text : Str
  meta : ChunkMetaP
deriving DecidableEq

/-- Descending order on entries by similarity to the current query. -/
def simRel (sim : VEntry → ℚ) (a b : VEntry) : Prop := sim b ≤ sim a

instance (sim : VEntry → ℚ) : DecidableRel (simRel sim) := fun a b =>
  inferInstanceAs (Decidable (sim b ≤ sim a))

instance (sim : VEntry → ℚ) : IsTotal VEntry (simRel sim) :=
  ⟨fun a b => le_total (sim b) (sim a)⟩

instance (sim : VEntry → ℚ) : IsTrans VEntry (simRel sim) :=
  ⟨fun _ _ _ hab hbc => le_trans hbc hab⟩

/-- Modelled from the spec: the Vector Index `query` operation (spec
section 4.4) is implemented by the external chromadb library, not by
repository code; per the spec it returns up to `k` nearest entries by
vector similarity, fewer when the index holds fewer entries, and an
empty sequence on an empty index.  `sim` gives the similarity of each
entry to the query vector. -/
def vector_index_query (sim : VEntry → ℚ) (entries : List VEntry) (k : ℕ) :
    List (Str × ChunkMetaP) :=
  ((entries.insertionSort (simRel sim)).take k).map (fun e => (e.text, e.meta))

/-- Value of a decimal digit string (left fold), used to invert
`natDec`. -/
def decVal (l : Str) : ℕ := l.foldl (fun a c => 10 * a + (c.toNat - 48)) 0

/-! ## Lemmas: splitting, joining and stripping -/

theorem goodWords_mono {l₁ l₂ : List Str} (h : ∀ w ∈ l₂, w ∈ l₁) (hg : goodWords l₁) :
    goodWords l₂ := fun w hw => hg w (h w hw)

theorem pySplitGo_good (s : List Char) :
    ∀ cur : List Char, (∀ c ∈ cur, c.isWhitespace = false) →
      goodWords (pySplitGo s cur) := by
  induction s with
  | nil =>
    intro cur hcur
    simp only [pySplitGo]
    split
    · intro w hw; simp at hw
    · next hne =>
      intro w hw
      simp only [List.mem_singleton] at hw
      subst hw
      refine ⟨by simpa using hne, ?_⟩
      intro c hc
      exact hcur c (List.mem_reverse.1 hc)
  | cons c rest ih =>
    intro cur hcur
    simp only [pySplitGo]
    by_cases hws : c.isWhitespace
    · simp only [hws, if_true]
      intro w hw
      rcases List.mem_append.1 hw with h1 | h2
      · split at h1
        · simp at h1
        · next hne =>
          simp only [List.mem_singleton] at h1
          subst h1
          refine ⟨by simpa using hne, ?_⟩
          intro d hd
          exact hcur d (List.mem_reverse.1 hd)
      · exact ih [] (by simp) w h2
    · simp only [hws, if_false]
      refine ih (c :: cur) ?_
      intro d hd
      rcases List.mem_cons.1 hd with h1 | h2
      · subst h1; simpa using hws
      · exact hcur d h2

theorem pySplit_good (s : Str) : goodWords (pySplit s) :=
  pySplitGo_good s [] (by simp)

theorem pySplitGo_word (w : Str) (hw : ∀ c ∈ w, c.isWhitespace = false) :
    ∀ (rest cur : List Char), pySplitGo (w ++ rest) cur = pySplitGo rest (w.reverse ++ cur) := by
  induction w with
  | nil => intro rest cur; simp
  | cons c w2 ih =>
    intro rest cur
    have hc : c.isWhitespace = false := hw c (by simp)
    have step : pySplitGo ((c :: w2) ++ rest) cur = pySplitGo (w2 ++ rest) (c :: cur) := by
      simp [pySplitGo, hc]
    rw [step, ih (fun d hd => hw d (by simp [hd])) rest (c :: cur)]
    simp

theorem pySplit_joinWords {ws : List Str} (h : goodWords ws) :
    pySplit (joinWords ws) = ws := by
  induction ws with
  | nil => rfl
  | cons w ws2 ih =>
    have hw := h w (by simp)
    have hrest : goodWords ws2 := goodWords_mono (fun x hx => by simp [hx]) h
    cases ws2 with
    | nil =>
      show pySplitGo (joinWords [w]) [] = [w]
      have : joinWords [w] = w ++ [] := by simp [joinWords, joinSep]
      rw [this, pySplitGo_word w hw.2 [] []]
      simp only [pySplitGo, List.append_nil]
      rw [if_neg (fun h => hw.1 (by simpa using h))]
      simp
    | cons w2 ws3 =>
      show pySplitGo (joinWords (w :: w2 :: ws3)) [] = w :: w2 :: ws3
      have hj : joinWords (w :: w2 :: ws3) = w ++ (' ' :: joinWords (w2 :: ws3)) := by
        simp [joinWords, joinSep]
      rw [hj, pySplitGo_word w hw.2, List.append_nil]
      have hsp : (' ' : Char).isWhitespace = true := by decide
      simp only [pySplitGo, hsp, if_true]
      rw [if_neg (fun h => hw.1 (by simpa using h))]
      have := ih hrest
      simp only [pySplit] at this
      simp [this]

theorem pyStrip_eq_nil_iff {l : Str} :
    pyStrip l = [] ↔ ∀ c ∈ l, c.isWhitespace = true := by
  unfold pyStrip
  rw [List.reverse_eq_nil_iff, List.dropWhile_eq_nil_iff]
  constructor
  · intro h c hc
    by_cases hmem : c ∈ l.dropWhile Char.isWhitespace
    · exact h c (List.mem_reverse.2 hmem)
    · have hc2 : c ∈ l.takeWhile Char.isWhitespace ++ l.dropWhile Char.isWhitespace := by
        rw [List.takeWhile_append_dropWhile]; exact hc
      rcases List.mem_append.1 hc2 with h1 | h2
      · exact List.mem_takeWhile_imp h1
      · exact absurd h2 hmem
  · intro h c hc
    exact h c ((List.dropWhile_sublist _).subset (List.mem_reverse.1 hc))

theorem joinWords_cons (w : Str) (ws : List Str) :
    ∃ t, joinWords (w :: ws) = w ++ t := by
  cases ws with
  | nil => exact ⟨[], by simp [joinWords, joinSep]⟩
  | cons w2 ws2 =>
    exact ⟨' ' :: joinWords (w2 :: ws2), by simp [joinWords, joinSep]⟩

theorem pyStrip_joinWords_ne_nil {w : Str} {ws : List Str}
    (hgood : goodWords (w :: ws)) : pyStrip (joinWords (w :: ws)) ≠ [] := by
  obtain ⟨hne, hchars⟩ := hgood w (by simp)
  obtain ⟨t, ht⟩ := joinWords_cons w ws
  intro hnil
  rw [pyStrip_eq_nil_iff] at hnil
  match w, hne with
  | c :: w2, _ =>
    have hc : c ∈ joinWords ((c :: w2) :: ws) := by
      rw [ht]; simp
    have := hnil c hc
    have := hchars c (by simp)
    simp_all

/-! ## Lemmas: the chunking loop -/

theorem take_strip_ne_nil {cs : ℕ} (hcs : 0 < cs) {w : Str} {t : List Str}
    (hgood : goodWords (w :: t)) :
    pyStrip (joinWords ((w :: t).take cs)) ≠ [] := by
  obtain ⟨cs2, rfl⟩ : ∃ cs2, cs = cs2 + 1 := ⟨cs - 1, by omega⟩
  rw [List.take_succ_cons]
  exact pyStrip_joinWords_ne_nil
    (goodWords_mono (fun x hx => by
      rcases List.mem_cons.1 hx with h1 | h2
      · simp [h1]
      · exact List.mem_cons_of_mem _ (List.take_subset _ _ h2)) hgood)

theorem chunkWindows_length (cs ov : ℕ) (hov : ov < cs) :
    ∀ (fuel : ℕ) (ws : List Str), goodWords ws → ws.length ≤ fuel →
      (chunkWindows cs ov fuel ws).length =
        if ws.length = 0 then 0
        else max 1 ((ws.length - ov + (cs - ov) - 1) / (cs - ov)) := by
  intro fuel
  induction fuel with
  | zero =>
    intro ws _ hlen
    have hnil : ws = [] := List.length_eq_zero.1 (by omega)
    subst hnil
    simp [chunkWindows]
  | succ fuel ih =>
    intro ws hgood hlen
    match ws with
    | [] => simp [chunkWindows]
    | w :: t =>
      have hstep : 0 < cs - ov := by omega
      have hchunk := take_strip_ne_nil (by omega : 0 < cs) hgood
      simp only [chunkWindows, if_pos hchunk]
      by_cases hle : (w :: t).length ≤ cs
      · rw [if_pos hle]
        have hW1 : (w :: t).length ≠ 0 := by simp
        rw [if_neg hW1]
        have hdiv : ((w :: t).length - ov + (cs - ov) - 1) / (cs - ov) < 2 := by
          rw [Nat.div_lt_iff_lt_mul hstep]; omega
        rw [Nat.max_eq_left (by omega : ((w :: t).length - ov + (cs - ov) - 1) / (cs - ov) ≤ 1)]
        simp
      · rw [if_neg hle]
        have hgood2 : goodWords ((w :: t).drop (cs - ov)) :=
          goodWords_mono (fun x hx => List.drop_subset _ _ hx) hgood
        have hlen2 : ((w :: t).drop (cs - ov)).length ≤ fuel := by
          rw [List.length_drop]
          simp only [List.length_cons] at hlen ⊢
          omega
        rw [List.length_append, List.length_singleton, ih _ hgood2 hlen2]
        rw [List.length_drop]
        have hWcs : cs < (w :: t).length := by omega
        have hW0 : (w :: t).length ≠ 0 := by simp
        rw [if_neg (by omega : ¬ ((w :: t).length - (cs - ov) = 0)), if_neg hW0]
        set W := (w :: t).length with hWdef
        set step := cs - ov with hstepdef
        have hx : step + 1 ≤ W - ov := by omega
        have e1 : W - step - ov + step - 1 = (W - ov - 1) := by omega
        have e2 : W - ov + step - 1 = (W - ov - 1) + step := by omega
        rw [e1, e2, Nat.add_div_right _ hstep]
        have hge : 1 ≤ (W - ov - 1) / step := by
          rw [Nat.one_le_div_iff hstep]; omega
        rw [Nat.max_eq_right hge, Nat.max_eq_right (by omega : 1 ≤ (W - ov - 1) / step + 1)]
        omega

theorem chunkWindows_mem (cs ov : ℕ) :
    ∀ (fuel : ℕ) (ws : List Str), ∀ ch ∈ chunkWindows cs ov fuel ws,
      ∃ su : List Str, (∀ w ∈ su, w ∈ ws) ∧ su.length ≤ cs ∧ ch = joinWords su := by
  intro fuel
  induction fuel with
  | zero => intro ws ch hch; simp [chunkWindows] at hch
  | succ fuel ih =>
    intro ws ch hch
    match ws with
    | [] => simp [chunkWindows] at hch
    | w :: t =>
      simp only [chunkWindows] at hch
      rcases List.mem_append.1 hch with h1 | h2
      · have hch2 : ch = joinWords ((w :: t).take cs) := by
          by_cases hs : pyStrip (joinWords ((w :: t).take cs)) ≠ []
          · rw [if_pos hs] at h1; simpa using h1
          · rw [if_neg hs] at h1; simp at h1
        exact ⟨(w :: t).take cs, fun x hx => List.take_subset _ _ hx,
          by simp, hch2⟩
      · by_cases hle : (w :: t).length ≤ cs
        · rw [if_pos hle] at h2; simp at h2
        · rw [if_neg hle] at h2
          obtain ⟨su, hsu1, hsu2, hsu3⟩ := ih _ ch h2
          exact ⟨su, fun x hx => List.drop_subset _ _ (hsu1 x hx), hsu2, hsu3⟩

theorem pyChunkCount_eq_ceil {W cs ov : ℕ} (hov : ov < cs) (hW : ov < W) :
    (pyChunkCount W cs ov : ℤ) = specCeilChunkCount W cs ov := by
  have hstep : 0 < cs - ov := by omega
  set step := cs - ov with hstepdef
  set x := W - ov with hxdef
  have hx1 : 1 ≤ x := by omega
  set q := (x + step - 1) / step with hqdef
  have hq1 : 1 ≤ q := by rw [hqdef, Nat.one_le_div_iff hstep]; omega
  have hcount : pyChunkCount W cs ov = q := by
    unfold pyChunkCount
    rw [if_neg (by omega : ¬ W = 0)]
    exact Nat.max_eq_right hq1
  have hdm := Nat.div_add_mod (x + step - 1) step
  have hmod := Nat.mod_lt (x + step - 1) hstep
  rw [← hqdef] at hdm
  have hub : x ≤ step * q := by omega
  have hlb : step * q < x + step := by omega
  have hxq : ((x : ℚ)) = (W : ℚ) - (ov : ℚ) := by rw [hxdef]; exact Nat.cast_sub hW.le
  have hstepq : ((step : ℚ)) = (cs : ℚ) - (ov : ℚ) := by rw [hstepdef]; exact Nat.cast_sub hov.le
  have hubq : (x : ℚ) ≤ (step : ℚ) * (q : ℚ) := by exact_mod_cast hub
  have hlbq : (step : ℚ) * (q : ℚ) < (x : ℚ) + (step : ℚ) := by exact_mod_cast hlb
  have hstepq0 : (0 : ℚ) < (step : ℚ) := by exact_mod_cast hstep
  rw [hcount]
  unfold specCeilChunkCount
  rw [← hxq, ← hstepq]
  refine (Int.ceil_eq_iff.2 ⟨?_, ?_⟩).symm
  · rw [lt_div_iff₀ hstepq0]
    push_cast
    linarith
  · rw [div_le_iff₀ hstepq0]
    push_cast
    linarith

/-- Claim C1 (amended): for every text and every configuration with
`overlap < chunk_size`, the chunker succeeds; every produced chunk (the
final one in particular) has at most `chunk_size` words; and the number
of chunks is `pyChunkCount W cs ov`, which for a text of more than
`overlap` words equals the ceiling `ceil((W - overlap) / (chunk_size -
overlap))` claimed by the specification.  (For a nonempty text of at
most `overlap` words the code still emits exactly one chunk while the
claimed ceiling is nonpositive; see the counterexample.) -/
theorem chunk_text_count (text : Str) (cs ov : ℕ) (hov : ov < cs) :
    chunk_text text cs ov = .ok (chunkTextRun text cs ov) ∧
    (chunkTextRun text cs ov).length = pyChunkCount (pySplit text).length cs ov ∧
    (∀ ch ∈ chunkTextRun text cs ov, (pySplit ch).length ≤ cs) ∧
    (ov < (pySplit text).length →
      ((chunkTextRun text cs ov).length : ℤ) =
        specCeilChunkCount (pySplit text).length cs ov) := by
  have hgood := pySplit_good text
  have hlen := chunkWindows_length cs ov hov ((pySplit text).length + 1)
    (pySplit text) hgood (by omega)
  have h2 : (chunkTextRun text cs ov).length = pyChunkCount (pySplit text).length cs ov := by
    simp only [chunkTextRun]
    rw [hlen]
    rfl
  refine ⟨?_, h2, ?_, ?_⟩
  · unfold chunk_text
    rw [if_neg (by omega), if_neg (by omega)]
  · intro ch hch
    simp only [chunkTextRun] at hch
    obtain ⟨su, hsu1, hsu2, hsu3⟩ := chunkWindows_mem cs ov _ _ ch hch
    rw [hsu3, pySplit_joinWords (goodWords_mono hsu1 hgood)]
    exact hsu2
  · intro hWov
    rw [h2]
    exact pyChunkCount_eq_ceil hov hWov

theorem chunk_text_count_witness :
    (chunkTextRun "a b c".data 2 1).length = pyChunkCount (pySplit "a b c".data).length 2 1 ∧
    (∀ ch ∈ chunkTextRun "a b c".data 2 1, (pySplit ch).length ≤ 2) ∧
    chunkTextRun "a b c".data 2 1 = ["a b".data, "b c".data] :=
  ⟨(chunk_text_count "a b c".data 2 1 (by omega)).2.1,
   (chunk_text_count "a b c".data 2 1 (by omega)).2.2.1,
   by decide⟩

/-- Claim C1 counterexample: a one-word text with `chunk_size = 3`,
`overlap = 2` (so `overlap < chunk_size`) produces one chunk, while the
claimed count `ceil((W - overlap) / (chunk_size - overlap))` is
`ceil((1 - 2) / 1) = -1`, not 1. -/
theorem chunk_text_count_counterexample :
    chunk_text "a".data 3 2 = .ok ["a".data] ∧
    specCeilChunkCount (pySplit "a".data).length 3 2 = -1 := by
  constructor
  · rfl
  · have h : (pySplit "a".data).length = 1 := by decide
    rw [h]
    unfold specCeilChunkCount
    rw [show ((1 : ℕ) : ℚ) - ((2 : ℕ) : ℚ) = ((-1 : ℤ) : ℚ) by norm_num,
      show ((3 : ℕ) : ℚ) - ((2 : ℕ) : ℚ) = 1 by norm_num]
    rw [div_one, Int.ceil_intCast]

/-- Claim C2 (amended): with `overlap = chunk_size` the chunker raises
`ValueError` (the step of `range` is zero) for any input; with
`overlap > chunk_size` it raises nothing and silently returns the empty
chunk list for any input (the range is empty); with
`overlap < chunk_size` it returns a chunk list.  No `ConfigurationError`
exists in the code. -/
theorem chunk_text_config_error (text : Str) (cs ov : ℕ) :
    (cs = ov → chunk_text text cs ov = .error .valueError) ∧
    (cs < ov → chunk_text text cs ov = .ok []) ∧
    (ov < cs → chunk_text text cs ov = .ok (chunkTextRun text cs ov)) := by
  refine ⟨?_, ?_, ?_⟩
  · intro h
    unfold chunk_text
    rw [if_pos h]
  · intro h
    unfold chunk_text
    rw [if_neg (by omega), if_pos h]
  · intro h
    unfold chunk_text
    rw [if_neg (by omega), if_neg (by omega)]

theorem chunk_text_config_error_witness :
    chunk_text "a b".data 3 3 = .error .valueError ∧
    chunk_text "a b".data 3 5 = .ok [] :=
  ⟨(chunk_text_config_error "a b".data 3 3).1 rfl,
   (chunk_text_config_error "a b".data 3 5).2.1 (by omega)⟩

/-- Claim C2 counterexample: with `overlap = 5 ≥ chunk_size = 3` the
chunker does not fail at all: it returns a (empty) chunk sequence.  The
claim that it raises a `ConfigurationError` is false; indeed no such
error class exists anywhere in the repository. -/
theorem chunk_text_config_error_counterexample :
    chunk_text "a b c d".data 3 5 = .ok [] := rfl

/-! ## Lemmas: the document fingerprint -/

theorem digitChar_ne_colon {k : ℕ} (hk : k < 10) : Nat.digitChar k ≠ ':' := by
  interval_cases k <;> decide

theorem digitChar_val {k : ℕ} (hk : k < 10) : (Nat.digitChar k).toNat - 48 = k := by
  interval_cases k <;> decide

theorem natDecGo_no_colon : ∀ (fuel n : ℕ), n < fuel → ':' ∉ natDecGo fuel n := by
  intro fuel
  induction fuel with
  | zero => intro n h; omega
  | succ fuel ih =>
    intro n h
    simp only [natDecGo]
    split
    · next h10 =>
      simp only [List.mem_singleton]
      exact fun hc => digitChar_ne_colon h10 hc.symm
    · next h10 =>
      intro hmem
      rcases List.mem_append.1 hmem with h1 | h2
      · have hdiv : n / 10 < fuel := by
          have := Nat.div_lt_self (show 0 < n by omega) (show 1 < 10 by omega)
          omega
        exact ih (n / 10) hdiv h1
      · simp only [List.mem_singleton] at h2
        exact digitChar_ne_colon (Nat.mod_lt n (by omega)) h2.symm

theorem natDec_no_colon (n : ℕ) : ':' ∉ natDec n :=
  natDecGo_no_colon _ _ (by omega)

theorem natDecGo_foldl : ∀ (fuel n a : ℕ), n < fuel →
    List.foldl (fun a c => 10 * a + (c.toNat - 48)) a (natDecGo fuel n)
      = a * 10 ^ (natDecGo fuel n).length + n := by
  intro fuel
  induction fuel with
  | zero => intro n a h; omega
  | succ fuel ih =>
    intro n a h
    simp only [natDecGo]
    split
    · next h10 =>
      simp [digitChar_val h10]
      ring
    · next h10 =>
      have hdiv : n / 10 < fuel := by
        have := Nat.div_lt_self (show 0 < n by omega) (show 1 < 10 by omega)
        omega
      rw [List.foldl_append, ih (n / 10) a hdiv]
      simp only [List.foldl_cons, List.foldl_nil, List.length_append,
        List.length_singleton, digitChar_val (Nat.mod_lt n (by omega : 0 < 10))]
      have h1 : a * 10 ^ ((natDecGo fuel (n / 10)).length + 1)
          = 10 * (a * 10 ^ (natDecGo fuel (n / 10)).length) := by ring
      omega

theorem decVal_natDec (n : ℕ) : decVal (natDec n) = n := by
  have := natDecGo_foldl (n + 1) n 0 (by omega)
  simpa [decVal, natDec] using this

theorem natDec_injective {m n : ℕ} (h : natDec m = natDec n) : m = n := by
  have hm := decVal_natDec m
  rw [h, decVal_natDec] at hm
  exact hm.symm

theorem colon_frame : ∀ {a : Str} {c b d : Str}, ':' ∉ a → ':' ∉ c →
    a ++ ':' :: b = c ++ ':' :: d → a = c ∧ b = d := by
  intro a
  induction a with
  | nil =>
    intro c b d _ hc h
    cases c with
    | nil =>
      simp only [List.nil_append, List.cons.injEq] at h
      exact ⟨rfl, h.2⟩
    | cons y c2 =>
      simp only [List.nil_append, List.cons_append, List.cons.injEq] at h
      exact absurd (h.1 ▸ List.mem_cons_self y c2) hc
  | cons x a2 ih =>
    intro c b d ha hc h
    cases c with
    | nil =>
      simp only [List.cons_append, List.nil_append, List.cons.injEq] at h
      exact absurd (h.1 ▸ List.mem_cons_self x a2) ha
    | cons y c2 =>
      simp only [List.cons_append, List.cons.injEq] at h
      obtain ⟨h1, h2⟩ := h
      obtain ⟨h3, h4⟩ := ih (fun hm => ha (List.mem_cons_of_mem _ hm))
        (fun hm => hc (List.mem_cons_of_mem _ hm)) h2
      exact ⟨by rw [h1, h3], h4⟩

theorem statEntry_append (p : PdfStat) (rest : Str) :
    statEntry p ++ rest
      = p.name ++ ':' :: (natDec p.size ++ ':' :: (p.mtime ++ ':' :: rest)) := by
  simp [statEntry]

theorem documentsHashContent_cons (p : PdfStat) (ps : List PdfStat) :
    documentsHashContent (p :: ps) = statEntry p ++ documentsHashContent ps := by
  simp [documentsHashContent]

theorem statEntry_ne_nil (p : PdfStat) : statEntry p ≠ [] := by
  intro h
  have h2 : (statEntry p).length = 0 := by rw [h]; rfl
  simp [statEntry] at h2

theorem documentsHashContent_inj : ∀ (ps qs : List PdfStat),
    (∀ p ∈ ps, ':' ∉ p.name ∧ ':' ∉ p.mtime) →
    (∀ p ∈ qs, ':' ∉ p.name ∧ ':' ∉ p.mtime) →
    documentsHashContent ps = documentsHashContent qs → ps = qs := by
  intro ps
  induction ps with
  | nil =>
    intro qs _ _ h
    cases qs with
    | nil => rfl
    | cons q qs2 =>
      rw [documentsHashContent_cons] at h
      exact absurd (List.append_eq_nil.1 h.symm).1 (statEntry_ne_nil q)
  | cons p ps2 ih =>
    intro qs hps hqs h
    cases qs with
    | nil =>
      rw [documentsHashContent_cons] at h
      exact absurd (List.append_eq_nil.1 h).1 (statEntry_ne_nil p)
    | cons q qs2 =>
      rw [documentsHashContent_cons, documentsHashContent_cons,
        statEntry_append, statEntry_append] at h
      have hp := hps p (by simp)
      have hq := hqs q (by simp)
      obtain ⟨h1, h2⟩ := colon_frame hp.1 hq.1 h
      obtain ⟨h3, h4⟩ := colon_frame (natDec_no_colon _) (natDec_no_colon _) h2
      obtain ⟨h5, h6⟩ := colon_frame hp.2 hq.2 h4
      have hsize : p.size = q.size := natDec_injective h3
      have hpq : p = q := by
        cases p; cases q
        simp_all
      rw [hpq, ih qs2 (fun r hr => hps r (by simp [hr]))
        (fun r hr => hqs r (by simp [hr])) h6]

/-- Claim C3 (amended): the string fed to MD5 by `get_documents_hash` is
a pure function of the sorted (name, size, mtime) stat list, so the
fingerprint is deterministic (equal document sets give equal digests);
and, provided no document name and no mtime rendering contains a colon,
the encoding is injective, so any addition, removal, or change of a
name, size or modification time changes the MD5 input (and hence the
digest, MD5 collisions aside).  Without the colon restriction the
colon-separated encoding is ambiguous and two different document sets
can produce the identical fingerprint (see the counterexample). -/
theorem documents_hash_separates (ps qs : List PdfStat)
    (hps : ∀ p ∈ ps, ':' ∉ p.name ∧ ':' ∉ p.mtime)
    (hqs : ∀ p ∈ qs, ':' ∉ p.name ∧ ':' ∉ p.mtime) :
    documentsHashContent ps = documentsHashContent qs ↔ ps = qs :=
  ⟨documentsHashContent_inj ps qs hps hqs, fun h => by rw [h]⟩

theorem documents_hash_separates_witness :
    documentsHashContent [⟨"a.pdf".data, 12, "5.0".data⟩]
      ≠ documentsHashContent [⟨"a.pdf".data, 13, "5.0".data⟩] := by
  intro h
  have h2 := (documents_hash_separates
    [⟨"a.pdf".data, 12, "5.0".data⟩] [⟨"a.pdf".data, 13, "5.0".data⟩]
    (by decide) (by decide)).1 h
  exact absurd h2 (by decide)

/-- Claim C3 counterexample: the two document sets
`{(a.pdf, 1, 2.0), (b.pdf, 3, 4.5)}` and `{(a.pdf:1:2.0:b.pdf, 3, 4.5)}`
differ (the second is obtained by removals and an addition) yet produce
the identical MD5 input string `a.pdf:1:2.0:b.pdf:3:4.5:`, hence the
identical fingerprint: the claim that any addition or removal changes
the digest is false. -/
theorem documents_hash_separates_counterexample :
    documentsHashContent [⟨"a.pdf".data, 1, "2.0".data⟩, ⟨"b.pdf".data, 3, "4.5".data⟩]
      = documentsHashContent [⟨"a.pdf:1:2.0:b.pdf".data, 3, "4.5".data⟩] ∧
    ([⟨"a.pdf".data, 1, "2.0".data⟩, ⟨"b.pdf".data, 3, "4.5".data⟩] : List PdfStat)
      ≠ [⟨"a.pdf:1:2.0:b.pdf".data, 3, "4.5".data⟩] := by
  constructor
  · decide
  · decide

/-! ## Lemmas: chunk and metadata alignment -/

theorem perDocChunksP_len (d t : Str) :
    (perDocChunksP d t).1.length = (perDocChunksP d t).2.length := by
  simp [perDocChunksP]

theorem perDocChunksP_mem (d t : Str) :
    ∀ cm ∈ (perDocChunksP d t).1.zip (perDocChunksP d t).2,
      cm.2.document = d ∧
      (chunkTextRun t 1200 200)[cm.2.chunk_id]? = some cm.1 ∧
      cm.2.total_chunks = (chunkTextRun t 1200 200).length := by
  intro cm hcm
  simp only [perDocChunksP] at hcm
  rw [List.zip_map'] at hcm
  obtain ⟨ic, hic, rfl⟩ := List.mem_map.1 hcm
  obtain ⟨hic2, _⟩ := List.mem_filter.1 hic
  obtain ⟨i, c⟩ := ic
  have h3 := List.mem_enumFrom (show (i, c) ∈ List.enumFrom 0 (chunkTextRun t 1200 200) from hic2)
  obtain ⟨-, hlt, hval⟩ := h3
  simp only [Nat.zero_add] at hlt
  simp only [Nat.sub_zero] at hval
  refine ⟨rfl, ?_, rfl⟩
  rw [List.getElem?_eq_getElem hlt]
  simp [hval]

theorem perDocChunksV2_len (splitter : Str → Str → List Str) (d t : Str) :
    (perDocChunksV2 splitter d t).1.length = (perDocChunksV2 splitter d t).2.length := by
  simp [perDocChunksV2]

theorem perDocChunksV2_mem (splitter : Str → Str → List Str) (d t : Str) :
    ∀ cm ∈ (perDocChunksV2 splitter d t).1.zip (perDocChunksV2 splitter d t).2,
      cm.2.document = d ∧
      (splitter t d)[cm.2.chunk_id]? = some cm.1 ∧
      cm.2.total_chunks = (splitter t d).length := by
  intro cm hcm
  simp only [perDocChunksV2] at hcm
  rw [List.zip_map'] at hcm
  obtain ⟨ic, hic, rfl⟩ := List.mem_map.1 hcm
  obtain ⟨hic2, _⟩ := List.mem_filter.1 hic
  obtain ⟨i, c⟩ := ic
  have h3 := List.mem_enumFrom (show (i, c) ∈ List.enumFrom 0 (splitter t d) from hic2)
  obtain ⟨-, hlt, hval⟩ := h3
  simp only [Nat.zero_add] at hlt
  simp only [Nat.sub_zero] at hval
  refine ⟨rfl, ?_, rfl⟩
  rw [List.getElem?_eq_getElem hlt]
  simp [hval]

theorem create_chunks_len (texts : List (Str × Str)) :
    (create_chunks texts).1.length = (create_chunks texts).2.length := by
  induction texts with
  | nil => rfl
  | cons dt ts ih =>
    simp only [create_chunks, List.map_cons, List.flatten_cons, List.length_append]
    simp only [create_chunks] at ih
    rw [perDocChunksP_len, ih]

theorem create_chunks_mem (texts : List (Str × Str)) :
    ∀ cm ∈ (create_chunks texts).1.zip (create_chunks texts).2,
      ∃ text, (cm.2.document, text) ∈ texts ∧
        (chunkTextRun text 1200 200)[cm.2.chunk_id]? = some cm.1 ∧
        cm.2.total_chunks = (chunkTextRun text 1200 200).length := by
  induction texts with
  | nil => intro cm hcm; simp [create_chunks] at hcm
  | cons dt ts ih =>
    intro cm hcm
    simp only [create_chunks, List.map_cons, List.flatten_cons] at hcm
    rw [List.zip_append (perDocChunksP_len dt.1 dt.2)] at hcm
    rcases List.mem_append.1 hcm with h1 | h2
    · obtain ⟨hdoc, hget, htot⟩ := perDocChunksP_mem dt.1 dt.2 cm h1
      exact ⟨dt.2, by rw [hdoc]; exact List.mem_cons_self _ _, hget, htot⟩
    · obtain ⟨text, hmem, hget, htot⟩ := ih cm h2
      exact ⟨text, List.mem_cons_of_mem _ hmem, hget, htot⟩

theorem create_enhanced_chunks_len (splitter : Str → Str → List Str)
    (texts : List (Str × Str)) :
    (create_enhanced_chunks splitter texts).1.length
      = (create_enhanced_chunks splitter texts).2.length := by
  induction texts with
  | nil => rfl
  | cons dt ts ih =>
    simp only [create_enhanced_chunks, List.map_cons, List.flatten_cons, List.length_append]
    simp only [create_enhanced_chunks] at ih
    rw [perDocChunksV2_len, ih]

theorem create_enhanced_chunks_mem (splitter : Str → Str → List Str)
    (texts : List (Str × Str)) :
    ∀ cm ∈ (create_enhanced_chunks splitter texts).1.zip (create_enhanced_chunks splitter texts).2,
      ∃ text, (cm.2.document, text) ∈ texts ∧
        (splitter text cm.2.document)[cm.2.chunk_id]? = some cm.1 ∧
        cm.2.total_chunks = (splitter text cm.2.document).length := by
  induction texts with
  | nil => intro cm hcm; simp [create_enhanced_chunks] at hcm
  | cons dt ts ih =>
    intro cm hcm
    simp only [create_enhanced_chunks, List.map_cons, List.flatten_cons] at hcm
    rw [List.zip_append (perDocChunksV2_len splitter dt.1 dt.2)] at hcm
    rcases List.mem_append.1 hcm with h1 | h2
    · obtain ⟨hdoc, hget, htot⟩ := perDocChunksV2_mem splitter dt.1 dt.2 cm h1
      refine ⟨dt.2, by rw [hdoc]; exact List.mem_cons_self _ _, ?_, ?_⟩
      · rw [hdoc]; exact hget
      · rw [hdoc]; exact htot
    · obtain ⟨text, hmem, hget, htot⟩ := ih cm h2
      exact ⟨text, List.mem_cons_of_mem _ hmem, hget, htot⟩

/-- Claim C9: the chunk list and the metadata list are created in
lockstep and stay aligned.  After `create_chunks`
(persistent_bhutan_rag.py) and after `create_enhanced_chunks`
(version2.py, for any section splitter) the two lists have equal length,
and each aligned pair's metadata names the source document in whose
chunking the chunk sits at position `chunk_id` (with the recorded
total); `load_chunks_data` returns `([], [])` on a read failure and
otherwise exactly the saved pair, so alignment survives a cache
round-trip. -/
theorem chunks_metadata_aligned (texts : List (Str × Str))
    (splitter : Str → Str → List Str) :
    (create_chunks texts).1.length = (create_chunks texts).2.length ∧
    (∀ cm ∈ (create_chunks texts).1.zip (create_chunks texts).2,
      ∃ text, (cm.2.document, text) ∈ texts ∧
        (chunkTextRun text 1200 200)[cm.2.chunk_id]? = some cm.1 ∧
        cm.2.total_chunks = (chunkTextRun text 1200 200).length) ∧
    (create_enhanced_chunks splitter texts).1.length
      = (create_enhanced_chunks splitter texts).2.length ∧
    (∀ cm ∈ (create_enhanced_chunks splitter texts).1.zip
        (create_enhanced_chunks splitter texts).2,
      ∃ text, (cm.2.document, text) ∈ texts ∧
        (splitter text cm.2.document)[cm.2.chunk_id]? = some cm.1 ∧
        cm.2.total_chunks = (splitter text cm.2.document).length) ∧
    load_chunks_data none = ([], []) ∧
    load_chunks_data (some (create_chunks texts)) = create_chunks texts :=
  ⟨create_chunks_len texts, create_chunks_mem texts,
   create_enhanced_chunks_len splitter texts, create_enhanced_chunks_mem splitter texts,
   rfl, rfl⟩

theorem chunks_metadata_aligned_witness :
    (create_chunks [("Penal_Code_2004".data, (joinWords (List.replicate 150 "word".data)))]).1.length
      = (create_chunks [("Penal_Code_2004".data, (joinWords (List.replicate 150 "word".data)))]).2.length :=
  (chunks_metadata_aligned
    [("Penal_Code_2004".data, (joinWords (List.replicate 150 "word".data)))]
    (fun t _ => [t])).1

/-! ## Lemmas: the keyword fallback search -/

theorem snd_mem_of_mem_enum {α : Type} {l : List α} {y : ℕ × α} (h : y ∈ l.enum) :
    y.2 ∈ l := by
  obtain ⟨i, a⟩ := y
  obtain ⟨-, hlt, hval⟩ :=
    List.mem_enumFrom (show (i, a) ∈ List.enumFrom 0 l from h)
  simp only [Nat.zero_add] at hlt
  simp only [Nat.sub_zero] at hval
  exact hval ▸ List.getElem_mem hlt

theorem scoredChunks_length (chunks : List Str) (metas : List ChunkMetaV2) (query : Str) :
    (scoredChunks chunks metas query).length
      = (chunks.zip metas).countP (fun cm => decide (0 < scoreChunk query cm.1 cm.2)) := by
  unfold scoredChunks
  generalize chunks.zip metas = l
  induction l with
  | nil => rfl
  | cons x xs ih =>
    by_cases h : 0 < scoreChunk query x.1 x.2
    · simp [List.filterMap_cons, List.countP_cons, h, ih]
    · simp [List.filterMap_cons, List.countP_cons, h, ih]

theorem scoredChunks_mem {chunks : List Str} {metas : List ChunkMetaV2} {query : Str}
    {y : ℕ × Str × ChunkMetaV2} (hy : y ∈ scoredChunks chunks metas query) :
    y.2 ∈ chunks.zip metas ∧ y.1 = scoreChunk query y.2.1 y.2.2 ∧ 0 < y.1 := by
  unfold scoredChunks at hy
  obtain ⟨a, ha, hfa⟩ := List.mem_filterMap.1 hy
  by_cases h : 0 < scoreChunk query a.1 a.2
  · simp only [if_pos h] at hfa
    obtain rfl : (scoreChunk query a.1 a.2, a) = y := by simpa using hfa
    exact ⟨ha, rfl, h⟩
  · simp only [if_neg h] at hfa
    simp at hfa

theorem enhanced_text_search_props (chunks : List Str) (metas : List ChunkMetaV2)
    (query : Str) (k : ℕ) :
    (enhanced_text_search chunks metas query k).1.length
        = min k ((chunks.zip metas).countP
            (fun cm => decide (0 < scoreChunk query cm.1 cm.2))) ∧
    (enhanced_text_search chunks metas query k).2.length
        = (enhanced_text_search chunks metas query k).1.length ∧
    (∀ p ∈ (enhanced_text_search chunks metas query k).1.zip
        (enhanced_text_search chunks metas query k).2,
      p ∈ chunks.zip metas ∧ 0 < scoreChunk query p.1 p.2) ∧
    List.Sorted (fun a b => b ≤ a)
      (((enhanced_text_search chunks metas query k).1.zip
          (enhanced_text_search chunks metas query k).2).map
        (fun p => scoreChunk query p.1 p.2)) := by
  have hperm : (((scoredChunks chunks metas query).enum).insertionSort scoreIdxRel).Perm
      ((scoredChunks chunks metas query).enum) := List.perm_insertionSort _ _
  have hsortlen : (((scoredChunks chunks metas query).enum).insertionSort scoreIdxRel).length
      = (scoredChunks chunks metas query).length := by
    rw [hperm.length_eq, List.enum_length]
  have hres1 : (enhanced_text_search chunks metas query k).1
      = (((((scoredChunks chunks metas query).enum).insertionSort scoreIdxRel).map
          Prod.snd).take k).map (fun x => x.2.1) := rfl
  have hres2 : (enhanced_text_search chunks metas query k).2
      = (((((scoredChunks chunks metas query).enum).insertionSort scoreIdxRel).map
          Prod.snd).take k).map (fun x => x.2.2) := rfl
  have hzip : (enhanced_text_search chunks metas query k).1.zip
      (enhanced_text_search chunks metas query k).2
      = (((((scoredChunks chunks metas query).enum).insertionSort scoreIdxRel).map
          Prod.snd).take k).map (fun x => (x.2.1, x.2.2)) := by
    rw [hres1, hres2, List.zip_map']
  have hmemtop : ∀ x ∈ ((((scoredChunks chunks metas query).enum).insertionSort
      scoreIdxRel).map Prod.snd).take k, x ∈ scoredChunks chunks metas query := by
    intro x hx
    have hx2 := List.mem_of_mem_take hx
    obtain ⟨y, hy, rfl⟩ := List.mem_map.1 hx2
    exact snd_mem_of_mem_enum (hperm.mem_iff.1 hy)
  refine ⟨?_, ?_, ?_, ?_⟩
  · rw [hres1, List.length_map, List.length_take, List.length_map, hsortlen,
      scoredChunks_length]
  · rw [hres1, hres2, List.length_map, List.length_map]
  · intro p hp
    rw [hzip] at hp
    obtain ⟨x, hx, rfl⟩ := List.mem_map.1 hp
    obtain ⟨hmem, hscore, hpos⟩ := scoredChunks_mem (hmemtop x hx)
    refine ⟨by simpa using hmem, ?_⟩
    simp only []
    rw [← hscore]
    exact hpos
  · rw [hzip, ← List.map_take, List.map_map, List.map_map]
    have hsorted : List.Sorted scoreIdxRel
        (((scoredChunks chunks metas query).enum).insertionSort scoreIdxRel) :=
      List.sorted_insertionSort _ _
    have htake : List.Pairwise scoreIdxRel
        ((((scoredChunks chunks metas query).enum).insertionSort scoreIdxRel).take k) :=
      List.Pairwise.sublist (List.take_sublist _ _) hsorted
    have hmemtake : ∀ x ∈ (((scoredChunks chunks metas query).enum).insertionSort
        scoreIdxRel).take k, x.2.1 = scoreChunk query x.2.2.1 x.2.2.2 := by
      intro x hx
      have hx2 : x.2 ∈ scoredChunks chunks metas query :=
        snd_mem_of_mem_enum (hperm.mem_iff.1 (List.mem_of_mem_take hx))
      exact (scoredChunks_mem hx2).2.1
    refine List.pairwise_map.2 ?_
    refine List.Pairwise.imp_of_mem ?_ htake
    intro a b ha hb hr
    simp only [Function.comp]
    rw [← hmemtake a ha, ← hmemtake b hb]
    rcases hr with h | h
    · omega
    · omega

/-- Claim C5 (amended): for every question and aligned chunk store the
keyword fallback search assigns each chunk the score
`10·[the entire lowercase question is a substring of the lowercase
chunk] + 2·(number of question-word occurrences, counted with
multiplicity over `query.lower().split()`, present in the chunk) + the
first matching of the +5 constitution / +5 corruption / +3 rights
document-name boosts` (this is `scoreChunk`); it returns at most `k`
chunks — exactly `min k` (number of positively scored chunks) — all
drawn from the retained chunks with positive score, in descending score
order, with ties broken by insertion order (the `enum` index in the
sorted intermediate list).  The claim's concrete sub-statement about
"penalty for corruption" is false: the +10 bonus requires the whole
question as a substring, not the phrase (see the counterexample). -/
theorem enhanced_search_ranking (chunks : List Str) (metas : List ChunkMetaV2)
    (query : Str) (k : ℕ) (_hlen : chunks.length = metas.length) :
    (enhanced_text_search chunks metas query k).1.length
        = min k ((chunks.zip metas).countP
            (fun cm => decide (0 < scoreChunk query cm.1 cm.2))) ∧
    (enhanced_text_search chunks metas query k).2.length
        = (enhanced_text_search chunks metas query k).1.length ∧
    (∀ p ∈ (enhanced_text_search chunks metas query k).1.zip
        (enhanced_text_search chunks metas query k).2,
      p ∈ chunks.zip metas ∧ 0 < scoreChunk query p.1 p.2) ∧
    List.Sorted (fun a b => b ≤ a)
      (((enhanced_text_search chunks metas query k).1.zip
          (enhanced_text_search chunks metas query k).2).map
        (fun p => scoreChunk query p.1 p.2)) ∧
    List.Pairwise (fun a b => b.2.1 < a.2.1 ∨ (a.2.1 = b.2.1 ∧ a.1 ≤ b.1))
      ((((scoredChunks chunks metas query).enum).insertionSort scoreIdxRel).take k) := by
  obtain ⟨h1, h2, h3, h4⟩ := enhanced_text_search_props chunks metas query k
  have htake : List.Pairwise scoreIdxRel
      ((((scoredChunks chunks metas query).enum).insertionSort scoreIdxRel).take k) :=
    List.Pairwise.sublist (List.take_sublist _ _)
      (List.sorted_insertionSort scoreIdxRel ((scoredChunks chunks metas query).enum))
  exact ⟨h1, h2, h3, h4, htake⟩

theorem enhanced_search_ranking_witness :
    ((enhanced_text_search ["the penalty law text here".data]
        [⟨"Penal_Code_2004".data, 0, 1, "criminal_law".data, []⟩] "penalty".data 5).1.length
      = min 5 (((["the penalty law text here".data]).zip
          [(⟨"Penal_Code_2004".data, 0, 1, "criminal_law".data, []⟩ : ChunkMetaV2)]).countP
          (fun cm => decide (0 < scoreChunk "penalty".data cm.1 cm.2)))) ∧
    (enhanced_text_search ["the penalty law text here".data]
        [⟨"Penal_Code_2004".data, 0, 1, "criminal_law".data, []⟩] "penalty".data 5).1
      = ["the penalty law text here".data] :=
  ⟨(enhanced_search_ranking ["the penalty law text here".data]
      [⟨"Penal_Code_2004".data, 0, 1, "criminal_law".data, []⟩] "penalty".data 5 rfl).1,
   by decide⟩

/-- Claim C5 counterexample, at the question of the claim itself.  Chunk
A (`"The penalty for corruption is imprisonment."`) contains the exact
substring `"penalty for corruption"`, yet its score is 8 — four matched
question words, no +10 bonus, because the bonus tests the whole question
`"what is the penalty for corruption?"`.  Chunk B matches only
individual question words, also scoring 8, and being first in insertion
order it ranks above A: the search over `[B, A]` returns `[B, A]`. -/
theorem enhanced_search_ranking_counterexample :
    isSubstring (pyLower "penalty for corruption".data)
      (pyLower "The penalty for corruption is imprisonment.".data) = true ∧
    scoreChunk "What is the penalty for corruption?".data
      "The penalty for corruption is imprisonment.".data
      ⟨"Penal_Code_2004".data, 1, 2, "criminal_law".data, []⟩ = 8 ∧
    isSubstring (pyLower "penalty for corruption".data)
      (pyLower "What is the law for the people? It is the law.".data) = false ∧
    scoreChunk "What is the penalty for corruption?".data
      "What is the law for the people? It is the law.".data
      ⟨"Legal_Procedures".data, 0, 2, "general_law".data, []⟩ = 8 ∧
    (enhanced_text_search
      ["What is the law for the people? It is the law.".data,
       "The penalty for corruption is imprisonment.".data]
      [⟨"Legal_Procedures".data, 0, 2, "general_law".data, []⟩,
       ⟨"Penal_Code_2004".data, 1, 2, "criminal_law".data, []⟩]
      "What is the penalty for corruption?".data 5).1
      = ["What is the law for the people? It is the law.".data,
         "The penalty for corruption is imprisonment.".data] := by
  refine ⟨by decide, by decide, by decide, by decide, by decide⟩

/-- Claim C10: for the empty question, the exact-phrase test succeeds on
every chunk (the empty string is a substring of everything), so every
stored chunk scores exactly 10 (no word or boost contributions are
possible), and the fallback search returns `k` chunks, all with positive
score, whenever at least `k` chunks are stored. -/
theorem isSubstring_nil (hay : Str) : isSubstring [] hay = true := by
  cases hay <;> rfl

theorem scoreChunk_nil (c : Str) (m : ChunkMetaV2) : scoreChunk [] c m = 10 := by
  unfold scoreChunk
  simp [isSubstring_nil, pyLower, pySplit, pySplitGo, isSubstring]

theorem empty_question_scores (chunks : List Str) (metas : List ChunkMetaV2) (k : ℕ)
    (hlen : chunks.length = metas.length) (hk : k ≤ chunks.length) :
    (∀ cm ∈ chunks.zip metas,
      isSubstring (pyLower []) (pyLower cm.1) = true ∧ scoreChunk [] cm.1 cm.2 = 10) ∧
    (enhanced_text_search chunks metas [] k).1.length = k ∧
    (∀ p ∈ (enhanced_text_search chunks metas [] k).1.zip
        (enhanced_text_search chunks metas [] k).2,
      0 < scoreChunk [] p.1 p.2) := by
  obtain ⟨h1, h2, h3, h4⟩ := enhanced_text_search_props chunks metas [] k
  refine ⟨fun cm _ => ⟨isSubstring_nil _, scoreChunk_nil _ _⟩, ?_, fun p hp => (h3 p hp).2⟩
  rw [h1]
  have hcount : (chunks.zip metas).countP
      (fun cm => decide (0 < scoreChunk [] cm.1 cm.2)) = (chunks.zip metas).length :=
    List.countP_eq_length.2 (fun a _ => by simp [scoreChunk_nil])
  rw [hcount, List.length_zip, ← hlen, Nat.min_self]
  exact Nat.min_eq_left hk

theorem empty_question_scores_witness :
    (∀ cm ∈ (["alpha beta gamma delta epsilon".data,
        "zeta eta theta iota kappa".data] : List Str).zip
        ([⟨"Constitution_2008".data, 0, 1, "constitution".data, []⟩,
          ⟨"Penal_Code_2004".data, 0, 1, "criminal_law".data, []⟩] : List ChunkMetaV2),
      isSubstring (pyLower []) (pyLower cm.1) = true ∧ scoreChunk [] cm.1 cm.2 = 10) ∧
    (enhanced_text_search ["alpha beta gamma delta epsilon".data,
        "zeta eta theta iota kappa".data]
      [⟨"Constitution_2008".data, 0, 1, "constitution".data, []⟩,
       ⟨"Penal_Code_2004".data, 0, 1, "criminal_law".data, []⟩] [] 2).1.length = 2 :=
  ⟨(empty_question_scores _ _ 2 rfl (by decide)).1,
   (empty_question_scores _ _ 2 rfl (by decide)).2.1⟩

/-! ## Claims C6, C7: fallback dispatch and result shape -/

/-- Claim C6 (amended): a null or failing vector index never crashes a
query.  In version2.py and bhutan_legal_rag.py the retrieval detects the
absent (or throwing) index and runs the keyword fallback over the
retained chunks; in persistent_bhutan_rag.py, however, the retrieval
returns `([], [])` immediately — it has no keyword fallback — so its ask
answers with the fixed no-information result without searching the
retained chunks (see the counterexample). -/
theorem index_fallback (chunks : List Str) (metas : List ChunkMetaV2)
    (query : Str) (k : ℕ) (st : List Str × List ChunkMetaP)
    (qa : Option (Str × ℚ)) (g : Option (Option Str)) :
    v2_search_documents none chunks metas query k
        = enhanced_text_search chunks metas query k ∧
    v2_search_documents (some (.error ())) chunks metas query k
        = enhanced_text_search chunks metas query k ∧
    search_legal_documents none (some st) query k
        = simple_text_search st.1 st.2 query k ∧
    search_legal_documents (some (.error ())) (some st) query k
        = simple_text_search st.1 st.2 query k ∧
    persistent_search_documents none = (([], []) : List Str × List ChunkMetaP) ∧
    persistent_ask_legal_question none g query
      = [("question".data, .str query), ("answer".data, .str pNoInfoAnswer),
         ("sources".data, .strList []), ("ai_powered".data, .bool false)] ∧
    ((enhanced_text_search chunks metas query 5).1 ≠ [] →
      (v2_ask_legal_question none qa chunks metas query).lookup "sources".data
        = some (.strList (((enhanced_text_search chunks metas query 5).2.map
            (fun m => pyReplaceChar '_' ' ' m.document)).dedup))) := by
  refine ⟨rfl, rfl, rfl, rfl, rfl, rfl, ?_⟩
  intro hne
  have hv : v2_search_documents none chunks metas query 5
      = enhanced_text_search chunks metas query 5 := rfl
  unfold v2_ask_legal_question
  rw [hv, if_neg hne]
  rfl

theorem index_fallback_witness :
    v2_search_documents none ["law text".data]
        [⟨"Constitution_2008".data, 0, 1, "constitution".data, []⟩] "law".data 5
      = enhanced_text_search ["law text".data]
        [⟨"Constitution_2008".data, 0, 1, "constitution".data, []⟩] "law".data 5 ∧
    (v2_ask_legal_question none none ["law text".data]
        [⟨"Constitution_2008".data, 0, 1, "constitution".data, []⟩] "law".data).lookup
        "sources".data
      = some (.strList (((enhanced_text_search ["law text".data]
          [⟨"Constitution_2008".data, 0, 1, "constitution".data, []⟩] "law".data 5).2.map
          (fun m => pyReplaceChar '_' ' ' m.document)).dedup)) :=
  ⟨(index_fallback ["law text".data]
      [⟨"Constitution_2008".data, 0, 1, "constitution".data, []⟩] "law".data 5
      ([], []) none none).1,
   (index_fallback ["law text".data]
      [⟨"Constitution_2008".data, 0, 1, "constitution".data, []⟩] "law".data 5
      ([], []) none none).2.2.2.2.2.2 (by decide)⟩

/-- Claim C6 counterexample: with the vector index absent and a retained
chunk store that the keyword fallback would match (as shown on the same
chunk in version2), the persistent variant does not run any fallback: it
returns the fixed no-information result with empty sources, without
searching the retained chunks. -/
theorem index_fallback_counterexample :
    persistent_search_documents none = (([], []) : List Str × List ChunkMetaP) ∧
    persistent_ask_legal_question none none "corruption".data
      = [("question".data, .str "corruption".data),
         ("answer".data, .str pNoInfoAnswer),
         ("sources".data, .strList []),
         ("ai_powered".data, .bool false)] ∧
    (enhanced_text_search ["The penalty for corruption is imprisonment.".data]
      [⟨"Penal_Code_2004".data, 0, 1, "criminal_law".data, []⟩] "corruption".data 5).1
      = ["The penalty for corruption is imprisonment.".data] :=
  ⟨rfl, rfl, by decide⟩

/-- Claim C7 (amended): both ask entry points always return a
well-formed result dictionary and are total (no exception reaches the
caller).  version2.py returns `{question, answer, sources,
relevant_excerpts, confidence}` with `0 ≤ confidence ≤ 1`, and on no
results the fixed no-information answer with empty sources and
confidence 0, exactly as claimed.  The persistent variant returns
`{question, answer, sources, ai_powered}` — it has no `confidence` field
at all (see the counterexample) — and on no results its fixed
no-information answer with empty sources. -/
theorem ask_result_shape (vdb2 : Option (Except Unit (List Str × List ChunkMetaV2)))
    (qa : Option (Str × ℚ)) (chunks : List Str) (metas : List ChunkMetaV2)
    (vdbP : Option (Except Unit (List Str × List ChunkMetaP)))
    (g : Option (Option Str)) (q : Str) :
    (v2_ask_legal_question vdb2 qa chunks metas q).lookup "question".data
        = some (.str q) ∧
    (∃ a, (v2_ask_legal_question vdb2 qa chunks metas q).lookup "answer".data
        = some (.str a)) ∧
    (∃ ss, (v2_ask_legal_question vdb2 qa chunks metas q).lookup "sources".data
        = some (.strList ss)) ∧
    (∃ conf, (v2_ask_legal_question vdb2 qa chunks metas q).lookup "confidence".data
        = some (.num conf) ∧ 0 ≤ conf ∧ conf ≤ 1) ∧
    ((v2_search_documents vdb2 chunks metas q 5).1 = [] →
      v2_ask_legal_question vdb2 qa chunks metas q
        = [("question".data, .str q), ("answer".data, .str v2NoInfoAnswer),
           ("sources".data, .strList []), ("confidence".data, .num 0)]) ∧
    (persistent_ask_legal_question vdbP g q).lookup "question".data = some (.str q) ∧
    (∃ a, (persistent_ask_legal_question vdbP g q).lookup "answer".data
        = some (.str a)) ∧
    (∃ ss, (persistent_ask_legal_question vdbP g q).lookup "sources".data
        = some (.strList ss)) ∧
    (persistent_ask_legal_question vdbP g q).lookup "confidence".data = none ∧
    ((persistent_search_documents vdbP).1 = [] →
      persistent_ask_legal_question vdbP g q
        = [("question".data, .str q), ("answer".data, .str pNoInfoAnswer),
           ("sources".data, .strList []), ("ai_powered".data, .bool false)]) := by
  have hv2e : (v2_search_documents vdb2 chunks metas q 5).1 = [] →
      v2_ask_legal_question vdb2 qa chunks metas q
        = [("question".data, .str q), ("answer".data, .str v2NoInfoAnswer),
           ("sources".data, .strList []), ("confidence".data, .num 0)] := by
    intro h
    unfold v2_ask_legal_question
    rw [if_pos h]
  have hv2n : (v2_search_documents vdb2 chunks metas q 5).1 ≠ [] →
      v2_ask_legal_question vdb2 qa chunks metas q
        = [("question".data, .str q),
           ("answer".data, .str (generate_enhanced_response qa q
              (v2_search_documents vdb2 chunks metas q 5).1
              (v2_search_documents vdb2 chunks metas q 5).2)),
           ("sources".data, .strList (((v2_search_documents vdb2 chunks metas q 5).2.map
              (fun m => pyReplaceChar '_' ' ' m.document)).dedup)),
           ("relevant_excerpts".data,
            .strList ((v2_search_documents vdb2 chunks metas q 5).1.take 2)),
           ("confidence".data,
            .num (min (((v2_search_documents vdb2 chunks metas q 5).1.length : ℚ) / 5) 1))] := by
    intro h
    unfold v2_ask_legal_question
    rw [if_neg h]
  have hpe : (persistent_search_documents vdbP).1 = [] →
      persistent_ask_legal_question vdbP g q
        = [("question".data, .str q), ("answer".data, .str pNoInfoAnswer),
           ("sources".data, .strList []), ("ai_powered".data, .bool false)] := by
    intro h
    unfold persistent_ask_legal_question
    rw [if_pos h]
  have hpn : (persistent_search_documents vdbP).1 ≠ [] →
      persistent_ask_legal_question vdbP g q
        = [("question".data, .str q),
           ("answer".data, .str (generate_response g q
              (persistent_search_documents vdbP).1 (persistent_search_documents vdbP).2)),
           ("sources".data, .strList (((persistent_search_documents vdbP).2.map
              (fun m => pyReplaceChar '_' ' ' m.document)).dedup)),
           ("ai_powered".data, .bool g.isSome)] := by
    intro h
    unfold persistent_ask_legal_question
    rw [if_neg h]
  by_cases h : (v2_search_documents vdb2 chunks metas q 5).1 = [] <;>
    by_cases hp : (persistent_search_documents vdbP).1 = []
  · rw [hv2e h, hpe hp]
    exact ⟨rfl, ⟨_, rfl⟩, ⟨_, rfl⟩, ⟨0, rfl, le_refl 0, by norm_num⟩,
      fun _ => rfl, rfl, ⟨_, rfl⟩, ⟨_, rfl⟩, rfl, fun _ => rfl⟩
  · rw [hv2e h, hpn hp]
    exact ⟨rfl, ⟨_, rfl⟩, ⟨_, rfl⟩, ⟨0, rfl, le_refl 0, by norm_num⟩,
      fun _ => rfl, rfl, ⟨_, rfl⟩, ⟨_, rfl⟩, rfl, fun hh => absurd hh hp⟩
  · rw [hv2n h, hpe hp]
    exact ⟨rfl, ⟨_, rfl⟩, ⟨_, rfl⟩,
      ⟨_, rfl, le_min (by positivity) zero_le_one, min_le_right _ _⟩,
      fun hh => absurd hh h, rfl, ⟨_, rfl⟩, ⟨_, rfl⟩, rfl, fun _ => rfl⟩
  · rw [hv2n h, hpn hp]
    exact ⟨rfl, ⟨_, rfl⟩, ⟨_, rfl⟩,
      ⟨_, rfl, le_min (by positivity) zero_le_one, min_le_right _ _⟩,
      fun hh => absurd hh h, rfl, ⟨_, rfl⟩, ⟨_, rfl⟩, rfl, fun hh => absurd hh hp⟩

theorem ask_result_shape_witness :
    (v2_ask_legal_question none none ["law text".data]
        [⟨"Constitution_2008".data, 0, 1, "constitution".data, []⟩] "law".data).lookup
        "question".data = some (.str "law".data) ∧
    (∃ conf, (v2_ask_legal_question none none ["law text".data]
        [⟨"Constitution_2008".data, 0, 1, "constitution".data, []⟩] "law".data).lookup
        "confidence".data = some (.num conf) ∧ 0 ≤ conf ∧ conf ≤ 1) ∧
    (persistent_ask_legal_question none none "law".data).lookup "confidence".data = none :=
  ⟨(ask_result_shape none none ["law text".data]
      [⟨"Constitution_2008".data, 0, 1, "constitution".data, []⟩] none none "law".data).1,
   (ask_result_shape none none ["law text".data]
      [⟨"Constitution_2008".data, 0, 1, "constitution".data, []⟩] none none "law".data).2.2.2.1,
   (ask_result_shape none none ["law text".data]
      [⟨"Constitution_2008".data, 0, 1, "constitution".data, []⟩]
      none none "law".data).2.2.2.2.2.2.2.2.1⟩

/-- Claim C7 counterexample: the persistent ask result has no
`confidence` field, with or without retrieved chunks, contradicting the
claimed `{question, answer, sources, confidence}` shape (it carries
`ai_powered` instead). -/
theorem ask_result_shape_counterexample :
    (persistent_ask_legal_question (some (.ok (["Chunk text about the law.".data],
        [⟨"Constitution_2008".data, 0, 1, "constitution".data⟩])))
      none "law".data).lookup "confidence".data = none ∧
    (persistent_ask_legal_question none none "law".data).lookup "confidence".data = none ∧
    (persistent_ask_legal_question (some (.ok (["Chunk text about the law.".data],
        [⟨"Constitution_2008".data, 0, 1, "constitution".data⟩])))
      none "law".data).lookup "ai_powered".data = some (.bool false) :=
  ⟨rfl, rfl, rfl⟩

/-! ## Claim C8: vector index query bounds -/

/-- Claim C8: querying the vector index returns an ordered sequence (by
descending similarity) of at most `k` (chunk text, metadata) pairs —
exactly `min k` (number of entries), hence fewer than `k` when the index
holds fewer entries — and the empty index yields the empty sequence; the
repository wrapper `search_documents` additionally converts any raised
exception into `([], [])`, so nothing propagates to the caller. -/
theorem vector_index_query_bounds (sim : VEntry → ℚ) (entries : List VEntry) (k : ℕ)
    (_hk : 1 ≤ k) :
    (vector_index_query sim entries k).length ≤ k ∧
    (vector_index_query sim entries k).length = min k entries.length ∧
    (entries = [] → vector_index_query sim entries k = []) ∧
    List.Sorted (fun a b => b ≤ a)
      (((entries.insertionSort (simRel sim)).take k).map sim) ∧
    persistent_search_documents (some (.error ()))
      = (([], []) : List Str × List ChunkMetaP) := by
  have hperm := List.perm_insertionSort (simRel sim) entries
  have hlen : (vector_index_query sim entries k).length = min k entries.length := by
    unfold vector_index_query
    rw [List.length_map, List.length_take, hperm.length_eq]
  refine ⟨by rw [hlen]; exact Nat.min_le_left _ _, hlen, ?_, ?_, rfl⟩
  · rintro rfl
    simp [vector_index_query]
  · have hsorted : List.Sorted (simRel sim) (entries.insertionSort (simRel sim)) :=
      List.sorted_insertionSort _ _
    have htake := List.Pairwise.sublist (List.take_sublist k _) hsorted
    exact List.pairwise_map.2 htake

theorem vector_index_query_bounds_witness :
    vector_index_query (fun _ => 0) [] 3 = [] ∧
    (vector_index_query (fun _ => 0)
      [⟨"text one".data, ⟨"Doc_A".data, 0, 1, "general_law".data⟩⟩,
       ⟨"text two".data, ⟨"Doc_B".data, 0, 1, "general_law".data⟩⟩] 3).length = min 3 2 :=
  ⟨(vector_index_query_bounds (fun _ => 0) [] 3 (by omega)).2.2.1 rfl,
   (vector_index_query_bounds (fun _ => 0)
      [⟨"text one".data, ⟨"Doc_A".data, 0, 1, "general_law".data⟩⟩,
       ⟨"text two".data, ⟨"Doc_B".data, 0, 1, "general_law".data⟩⟩] 3 (by omega)).2.1⟩

/-! ## Claim C4: the cache-valid path is unreachable after a rebuild -/

/-- Claim C4 (code bug witness): starting cold, a full rebuild succeeds,
extracts and embeds, records the fingerprint — but never writes
`embeddings.pickle`, which `is_cache_valid` requires.  Hence, with the
document set unchanged, the very next `initialize_system` finds the
cache invalid and runs text extraction again, contradicting the claim
(and the intent stated in the module itself) that an unchanged document
set is served from cache with no extraction. -/
theorem cache_invalid_after_rebuild :
    let s0 : RagState :=
      { docsHash := "h1".data, metadataHash := none, textsFileExists := false,
        chunksFileExists := false, embeddingsFileExists := false, storedTexts := [],
        storedChunks := ([], []), collectionExists := false, pdfsPresent := true,
        pdfTexts := [("Penal_Code_2004".data, List.replicate 101 'a')],
        embeddingModelOk := true }
    (initialize_system s0).success = true ∧
    0 < (initialize_system s0).extractCalls ∧
    0 < (initialize_system s0).embeddedChunks ∧
    (initialize_system s0).state.docsHash = s0.docsHash ∧
    (initialize_system s0).state.metadataHash = some s0.docsHash ∧
    (initialize_system s0).state.textsFileExists = true ∧
    (initialize_system s0).state.chunksFileExists = true ∧
    (initialize_system s0).state.embeddingsFileExists = false ∧
    is_cache_valid (initialize_system s0).state = false ∧
    0 < (initialize_system (initialize_system s0).state).extractCalls := by
  decide
